import Mathlib

/-!
Shallow embedding of the TaskManager board-authorization and recency core:
the Access Evaluator (CustomUser.can_view_board, src/accounts/models.py),
the Ownership Resolver scope (BoardList.get_queryset, src/boards/views.py),
the Recency Tracker call sites (BoardDetail.get_object, BoardList.get_queryset)
over a model of the external ranked-association store, and the update logic of
BoardDetail.perform_update and ItemDetail.perform_update (src/boards/views.py).
-/

namespace TaskManager

/-- A user row of accounts.CustomUser: the primary key and the unique email
(the USERNAME_FIELD). Other columns play no role in the authorization core. -/
structure CustomUser where
  id : Nat
  email : String
  deriving DecidableEq, Repr

/-- A projects.ProjectMembership row: the (project, member, access_level)
triple, unique per (project, member). -/
structure ProjectMembership where
  project : Nat
  member : Nat
  access_level : Nat
  deriving DecidableEq, Repr

/-- A boards.Board row. Ownership is polymorphic: owner_model holds the
content type name ("customuser" or "project") and owner_id the owning row's
id. The appearance fields mirror the model: image is a nullable file field
(none means no file), image_url and color are plain char fields. -/
structure Board where
  id : Nat
  title : String
  owner_id : Nat
  owner_model : String
  image : Option String
  image_url : String
  color : String
  deriving DecidableEq, Repr

/-- CustomUser.can_view_board, src/accounts/models.py lines 35-47: when the
board's owner content type is "project", look up a ProjectMembership with
member = self and project id = board.owner_id; DoesNotExist is caught and
yields False. The lookup ignores access_level, and memberships are unique per
(project, member), so objects.get succeeds exactly when a matching record
exists. Any other owner content type falls into the else branch, which only
compares board.owner_id with self.id. -/
def CustomUser.can_view_board (self : CustomUser) (board : Board)
    (memberships : List ProjectMembership) : Bool :=
  if board.owner_model == "project" then
    memberships.any (fun m => m.member == self.id && m.project == board.owner_id)
  else
    board.owner_id == self.id

/-- C1 counterexample: a board whose owner_model is "banana" (neither "user"
nor "project") with owner_id equal to the requesting user's id is viewable,
because the else branch of can_view_board treats every non-project owner kind
as user ownership. The claim states canView must be false here. -/
theorem can_view_board_corrupt_kind_counterexample :
    (Board.owner_model ⟨1, "B", 5, "banana", none, "", ""⟩ ≠ "user" ∧
     Board.owner_model ⟨1, "B", 5, "banana", none, "", ""⟩ ≠ "project") ∧
    CustomUser.can_view_board ⟨5, "eve"⟩ ⟨1, "B", 5, "banana", none, "", ""⟩ [] = true := by
  exact ⟨⟨by decide, by decide⟩, rfl⟩

/-- C1 (amended): for every board whose owner_model is neither "project" nor
"customuser" (a corrupt owner kind), the Access Evaluator treats the board as
user-owned: canView(u, B) is true iff B.owner_id = u.id. So a corrupt board
is never treated as public and is denied to every user other than the one
whose id matches owner_id, but it is not denied to that matching user. -/
theorem can_view_board_corrupt_kind (u : CustomUser) (b : Board)
    (ms : List ProjectMembership) (h1 : b.owner_model ≠ "project")
    (_h2 : b.owner_model ≠ "customuser") :
    (u.can_view_board b ms = true ↔ b.owner_id = u.id) := by
  have hc : (b.owner_model == "project") = false := by
    simp [h1]
  simp [CustomUser.can_view_board, hc]

/-- Witness for the amended C1 at a concrete corrupt-kind board. -/
theorem can_view_board_corrupt_kind_witness :
    CustomUser.can_view_board ⟨5, "mallory"⟩ ⟨1, "B", 5, "banana", none, "", ""⟩ [] = true :=
  (can_view_board_corrupt_kind ⟨5, "mallory"⟩ ⟨1, "B", 5, "banana", none, "", ""⟩ []
    (by decide) (by decide)).mpr rfl

/-- C5: for every board owned by project P (owner_model = "project",
owner_id = P), canView(u, B) holds iff some ProjectMembership record with
member = u and project = P exists; the condition never mentions the
membership's access_level, so the result is independent of it. -/
theorem can_view_board_project_owned (u : CustomUser) (b : Board) (P : Nat)
    (ms : List ProjectMembership) (hkind : b.owner_model = "project")
    (hown : b.owner_id = P) :
    (u.can_view_board b ms = true ↔ ∃ m ∈ ms, m.member = u.id ∧ m.project = P) := by
  subst hown
  have hc : (b.owner_model == "project") = true := by
    simp [hkind]
  simp [CustomUser.can_view_board, hc]

/-- Witness for C5: a member of project 3 (at access_level 1) can view the
project-owned board. -/
theorem can_view_board_project_owned_witness :
    CustomUser.can_view_board ⟨9, "member"⟩ ⟨2, "B", 3, "project", none, "", ""⟩
      [⟨3, 9, 1⟩] = true :=
  (can_view_board_project_owned ⟨9, "member"⟩ ⟨2, "B", 3, "project", none, "", ""⟩ 3
    [⟨3, 9, 1⟩] rfl rfl).mpr ⟨⟨3, 9, 1⟩, by simp, rfl, rfl⟩

/-- C6: for every board owned by user U (owner_model = "customuser",
owner_id = U.id), canView(u, B) holds iff u has U's id, for every membership
state: no other user, project member or not, can view it. -/
theorem can_view_board_user_owned (u U : CustomUser) (b : Board)
    (ms : List ProjectMembership) (hkind : b.owner_model = "customuser")
    (hown : b.owner_id = U.id) :
    (u.can_view_board b ms = true ↔ u.id = U.id) := by
  have hc : (b.owner_model == "project") = false := by
    simp [hkind]
  simp only [CustomUser.can_view_board, hc]
  simp [hown]
  exact eq_comm

/-- Witness for C6: the owning user can view their own board. -/
theorem can_view_board_user_owned_witness :
    CustomUser.can_view_board ⟨5, "owner"⟩ ⟨4, "B", 5, "customuser", none, "", ""⟩ [] = true :=
  (can_view_board_user_owned ⟨5, "owner"⟩ ⟨5, "owner"⟩
    ⟨4, "B", 5, "customuser", none, "", ""⟩ [] rfl rfl).mpr rfl

/-- BoardList.get_queryset with no project parameter, src/boards/views.py
lines 57-62: project_ids is the list of project ids of the requester's
memberships, computed fresh from the membership relation, and the queryset
keeps the boards that are user-owned by the requester or project-owned by one
of those projects. -/
def boardListScopeNoProject (u : CustomUser) (ms : List ProjectMembership)
    (boards : List Board) : List Board :=
  let project_ids := (ms.filter (fun m => m.member == u.id)).map (fun m => m.project)
  boards.filter (fun b =>
    (b.owner_id == u.id && b.owner_model == "customuser") ||
    (project_ids.contains b.owner_id && b.owner_model == "project"))

/-- Spec wording, for the refinement comparison of C7: the board is user-owned
by U. -/
def specUserOwnedBy (u : CustomUser) (b : Board) : Prop :=
  b.owner_model = "customuser" ∧ b.owner_id = u.id

/-- Spec wording, for the refinement comparison of C7: the board is owned by
some project of which U is a member. -/
def specMemberProjectOwned (u : CustomUser) (ms : List ProjectMembership)
    (b : Board) : Prop :=
  b.owner_model = "project" ∧ ∃ m ∈ ms, m.member = u.id ∧ m.project = b.owner_id

/-- C7: the Ownership Resolver scope with no project id returns exactly the
boards that are user-owned by U together with the boards owned by a project
of which U is a member — never more, never less, for every membership state
and board table. -/
theorem boardListScopeNoProject_eq_spec (u : CustomUser)
    (ms : List ProjectMembership) (boards : List Board) (b : Board) :
    b ∈ boardListScopeNoProject u ms boards ↔
      b ∈ boards ∧ (specUserOwnedBy u b ∨ specMemberProjectOwned u ms b) := by
  simp only [boardListScopeNoProject, specUserOwnedBy, specMemberProjectOwned,
    List.mem_filter, Bool.or_eq_true, Bool.and_eq_true, beq_iff_eq,
    List.contains, List.elem_eq_mem, decide_eq_true_eq, List.mem_map]
  tauto

/-- Request data for a Board or Item update, restricted to the fields the
update logic inspects: some v means the key is present in request.data with
value v, none means the key is absent. For image the carried value is the
model's nullable file value. -/
structure UpdateData where
  title : Option String
  image : Option (Option String)
  image_url : Option String
  color : Option String
  deriving DecidableEq, Repr

/-- The serializer save on a Board: fields present in the request data are
applied to the instance, and explicit keyword overrides passed to save take
precedence over the request data. One override slot per appearance field;
none means no override for that field. -/
def boardSerializerSave (b : Board) (d : UpdateData)
    (ov_image : Option (Option String)) (ov_image_url : Option String)
    (ov_color : Option String) : Board :=
  { b with
    title := d.title.getD b.title
    image := ov_image.getD (d.image.getD b.image)
    image_url := ov_image_url.getD (d.image_url.getD b.image_url)
    color := ov_color.getD (d.color.getD b.color) }

/-- BoardDetail.perform_update, src/boards/views.py lines 169-180: an
if/elif/elif chain on key presence. The image branch saves with
image_url = "" and color = ""; the image_url branch saves with image = None
and color = ""; the color branch saves with image = None and image_url = "";
with none of the three keys present no save happens at all. -/
def BoardDetail.perform_update (b : Board) (d : UpdateData) : Board :=
  if d.image.isSome then
    boardSerializerSave b d none (some "") (some "")
  else if d.image_url.isSome then
    boardSerializerSave b d (some none) none (some "")
  else if d.color.isSome then
    boardSerializerSave b d (some none) (some "") none
  else
    b

/-- C8 counterexample: a request whose data contains both the image key and
the color key takes the image branch of the if/elif chain, so the board's
image afterwards is the newly supplied file, not cleared — yet the claim
states that after an update containing color the image is cleared. -/
theorem perform_update_mixed_keys_counterexample :
    (UpdateData.color ⟨none, some (some "pic"), none, some "red"⟩).isSome = true ∧
    (BoardDetail.perform_update ⟨1, "t", 7, "customuser", none, "", ""⟩
      ⟨none, some (some "pic"), none, some "red"⟩).image = some "pic" := by
  exact ⟨rfl, rfl⟩

/-- C8 (amended): the three update paths are if/elif/elif branches in
priority order image, image_url, color. After an update containing image,
image_url and color are empty; after one containing image_url but not image,
image and color are cleared; after one containing color but neither image nor
image_url, image and image_url are cleared. So at most one appearance field is
active after each of the three paths. -/
theorem perform_update_appearance_exclusive (b : Board) (d : UpdateData) :
    (d.image.isSome = true →
      (BoardDetail.perform_update b d).image_url = "" ∧
      (BoardDetail.perform_update b d).color = "") ∧
    (d.image = none → d.image_url.isSome = true →
      (BoardDetail.perform_update b d).image = none ∧
      (BoardDetail.perform_update b d).color = "") ∧
    (d.image = none → d.image_url = none → d.color.isSome = true →
      (BoardDetail.perform_update b d).image = none ∧
      (BoardDetail.perform_update b d).image_url = "") := by
  refine ⟨fun h1 => ?_, fun h1 h2 => ?_, fun h1 h2 h3 => ?_⟩
  · simp [BoardDetail.perform_update, boardSerializerSave, h1]
  · simp [BoardDetail.perform_update, boardSerializerSave, h1, h2]
  · simp [BoardDetail.perform_update, boardSerializerSave, h1, h2, h3]

/-- Witness for the amended C8 on the three single-key update requests. -/
theorem perform_update_appearance_exclusive_witness :
    ((BoardDetail.perform_update ⟨1, "t", 7, "customuser", none, "u0", "c0"⟩
        ⟨none, some (some "pic"), none, none⟩).image_url = "" ∧
      (BoardDetail.perform_update ⟨1, "t", 7, "customuser", none, "u0", "c0"⟩
        ⟨none, some (some "pic"), none, none⟩).color = "") ∧
    ((BoardDetail.perform_update ⟨1, "t", 7, "customuser", some "p0", "", "c0"⟩
        ⟨none, none, some "http-img", none⟩).image = none ∧
      (BoardDetail.perform_update ⟨1, "t", 7, "customuser", some "p0", "", "c0"⟩
        ⟨none, none, some "http-img", none⟩).color = "") ∧
    ((BoardDetail.perform_update ⟨1, "t", 7, "customuser", some "p0", "u0", ""⟩
        ⟨none, none, none, some "red"⟩).image = none ∧
      (BoardDetail.perform_update ⟨1, "t", 7, "customuser", some "p0", "u0", ""⟩
        ⟨none, none, none, some "red"⟩).image_url = "") := by
  exact ⟨(perform_update_appearance_exclusive _ _).1 rfl,
    (perform_update_appearance_exclusive _ _).2.1 rfl rfl,
    (perform_update_appearance_exclusive _ _).2.2 rfl rfl rfl⟩

/-- C10: a Board update whose request data contains none of the keys image,
image_url or color takes no branch of the if/elif chain, so no save happens:
the board is unchanged in every field, title included, even when the data
carries a title. -/
theorem perform_update_no_appearance_keys_frame (b : Board) (d : UpdateData)
    (h1 : d.image = none) (h2 : d.image_url = none) (h3 : d.color = none) :
    BoardDetail.perform_update b d = b := by
  simp [BoardDetail.perform_update, h1, h2, h3]

/-- Witness for C10: a request carrying only a new title leaves the board,
title included, unchanged. -/
theorem perform_update_no_appearance_keys_frame_witness :
    BoardDetail.perform_update ⟨1, "Old", 7, "customuser", none, "", "blue"⟩
      ⟨some "New title", none, none, none⟩ =
      ⟨1, "Old", 7, "customuser", none, "", "blue"⟩ :=
  perform_update_no_appearance_keys_frame _ _ rfl rfl rfl

/-- A boards.Item row restricted to what the assignment toggle touches: the
primary key and the assigned_to many-to-many set of user ids. -/
structure Item where
  id : Nat
  assigned_to : Finset Nat
  deriving DecidableEq

/-- The assigned_to branch of ItemDetail.perform_update, src/boards/views.py
lines 450-453: if the user is already in the item's assigned_to set they are
removed, otherwise they are added. -/
def toggleAssigned (assigned : Finset Nat) (uid : Nat) : Finset Nat :=
  if uid ∈ assigned then assigned.erase uid else insert uid assigned

/-- Toggling the same user twice restores the assignment set. -/
theorem toggleAssigned_pair (s : Finset Nat) (uid : Nat) :
    toggleAssigned (toggleAssigned s uid) uid = s := by
  by_cases h : uid ∈ s
  · have h1 : toggleAssigned s uid = s.erase uid := by
      simp [toggleAssigned, h]
    rw [h1, toggleAssigned, if_neg (Finset.not_mem_erase uid s), Finset.insert_erase h]
  · have h1 : toggleAssigned s uid = insert uid s := by
      simp [toggleAssigned, h]
    rw [h1, toggleAssigned, if_pos (Finset.mem_insert_self uid s), Finset.erase_insert h]

/-- A single toggle always changes the assignment set. -/
theorem toggleAssigned_ne (s : Finset Nat) (uid : Nat) :
    toggleAssigned s uid ≠ s := by
  by_cases h : uid ∈ s
  · rw [toggleAssigned, if_pos h, Ne, Finset.erase_eq_self]
    exact fun hc => hc h
  · rw [toggleAssigned, if_neg h, Ne, Finset.insert_eq_self]
    exact h

/-- The string-valued columns of accounts.CustomUser reachable by an ORM
keyword lookup in this embedding, as (name, accessor) pairs. The model
defines email as its USERNAME_FIELD and no username column, and neither
AbstractBaseUser nor PermissionsMixin supplies one
(src/accounts/models.py lines 12-29). -/
def customUserStringColumns : List (String × (CustomUser → String)) :=
  [("email", fun u => u.email)]

/-- A Django ORM get on the user table with one string keyword filter, as
used by get_object_or_404: a keyword naming no column raises FieldError
before any row is consulted — and get_object_or_404 converts only
DoesNotExist to Http404, not FieldError; a keyword naming a column filters
the rows, with a missing row mapped to Http404. -/
def ormGetUser (keyword : String) (value : String) (users : List CustomUser) :
    Except String CustomUser :=
  match customUserStringColumns.find? (fun col => col.1 == keyword) with
  | none => Except.error "FieldError: cannot resolve keyword"
  | some col =>
    match users.find? (fun u => col.2 u == value) with
    | some u => Except.ok u
    | none => Except.error "Http404"

/-- ItemDetail.get_user, src/boards/views.py lines 380-385: the user is
fetched with get_object_or_404(User, username=username) and then gated on
can_view_board, with None for a user who cannot view the board. Because
CustomUser has no username column, the lookup raises FieldError for every
input and the gate is never reached. -/
def ItemDetail.get_user (users : List CustomUser) (username : String)
    (board : Board) (ms : List ProjectMembership) :
    Except String (Option CustomUser) :=
  match ormGetUser "username" username users with
  | Except.error e => Except.error e
  | Except.ok user =>
    if user.can_view_board board ms then
      Except.ok (some user)
    else
      Except.ok none

/-- ItemDetail.put restricted to a request whose data carries only the
assigned_to key, src/boards/views.py lines 411-417 together with
perform_update lines 446-453: an error from the user lookup propagates
uncaught; a None from the gate is answered with a 400 response; otherwise the
serializer save leaves the item unchanged and the membership toggle is
applied. -/
def ItemDetail.putAssignedTo (users : List CustomUser) (item : Item)
    (board : Board) (username : String) (ms : List ProjectMembership) :
    Except String Item :=
  match ItemDetail.get_user users username board ms with
  | Except.error e => Except.error e
  | Except.ok none => Except.error "400: This user cannot view this board"
  | Except.ok (some user) =>
    Except.ok { item with assigned_to := toggleAssigned item.assigned_to user.id }

/-- C9 at the failing input: an assigned_to update by the board owner on a
concrete item fails with the FieldError raised by the username lookup —
CustomUser has no username column — before any validation or toggle runs, so
the toggle pair the claim describes is unreachable through this view. The
toggle step of perform_update in isolation would satisfy the claim: toggling
twice restores the assignment set and a single toggle always changes it. -/
theorem put_assigned_to_fieldError :
    ItemDetail.putAssignedTo [⟨5, "owner"⟩] ⟨11, {3}⟩
      ⟨4, "B", 5, "customuser", none, "", ""⟩ "owner" [] =
      Except.error "FieldError: cannot resolve keyword" ∧
    toggleAssigned (toggleAssigned {3} 5) 5 = {3} ∧
    toggleAssigned {3} 5 ≠ ({3} : Finset Nat) := by
  exact ⟨rfl, toggleAssigned_pair {3} 5, toggleAssigned_ne {3} 5⟩

/-- An entry of the per-user ranked association in the external store: a
board id together with its last-viewed score. -/
abbrev ZEntry := Nat × Int

/-- Modelled from the spec: the external ranked-association store behind the
per-user RecentlyViewedBoards key is an external collaborator, described as
zadd/zrange-equivalent operations over a per-user sorted set. The set is
represented as an association list from board id to score with at most one
entry per id; zadd upserts, replacing any existing entry for the member with
the new score (last write wins). -/
def zadd (s : List ZEntry) (member : Nat) (score : Int) : List ZEntry :=
  s.filter (fun e => !(e.1 == member)) ++ [(member, score)]

/-- The score currently stored for a member, if any. -/
def zscore (s : List ZEntry) (member : Nat) : Option Int :=
  (s.find? (fun e => e.1 == member)).map (fun e => e.2)

/-- Descending zrange order: higher score first, score ties broken by member
id (an implementation-defined stable order, as the spec allows). -/
def zrangeDescRel (x y : ZEntry) : Prop :=
  y.2 < x.2 ∨ (x.2 = y.2 ∧ y.1 ≤ x.1)

instance : DecidableRel zrangeDescRel := fun x y => by
  unfold zrangeDescRel
  infer_instance

instance : IsTotal ZEntry zrangeDescRel where
  total x y := by
    unfold zrangeDescRel
    omega

instance : IsTrans ZEntry zrangeDescRel where
  trans x y z hxy hyz := by
    unfold zrangeDescRel at hxy hyz ⊢
    omega

/-- Modelled from the spec: zrange with desc over a sorted set returns the
members ordered by score descending; indices 0 to k-1 give the first k. -/
def zrangeDesc (s : List ZEntry) (k : Nat) : List Nat :=
  ((List.insertionSort zrangeDescRel s).map Prod.fst).take k

/-- recordView of the Recency Tracker: the zadd call in
BoardDetail.get_object, src/boards/views.py line 166. -/
def recordView (s : List ZEntry) (board_id : Nat) (ts : Int) : List ZEntry :=
  zadd s board_id ts

/-- topRecent of the Recency Tracker: the zrange call in
BoardList.get_queryset, src/boards/views.py line 51, generalized from the
fixed 0..3 range to the first k entries. -/
def topRecent (s : List ZEntry) (k : Nat) : List Nat :=
  zrangeDesc s k

/-- The store contents after a sequence of recordView calls starting from an
empty per-user key. -/
def applyViews (ops : List (Nat × Int)) : List ZEntry :=
  ops.foldl (fun s p => recordView s p.1 p.2) []

/-- The timestamp of the last recordView for a board in a call sequence. -/
def lastRecorded (ops : List (Nat × Int)) (b : Nat) : Option Int :=
  (ops.reverse.find? (fun p => p.1 == b)).map (fun p => p.2)

/-- Searching an association list for a key different from the one a zadd
filtered out is unaffected by that filtering. -/
theorem find?_filter_key_ne (s : List ZEntry) (m b : Nat) (h : b ≠ m) :
    (s.filter (fun e => !(e.1 == m))).find? (fun e => e.1 == b) =
      s.find? (fun e => e.1 == b) := by
  induction s with
  | nil => rfl
  | cons a rest ih =>
    by_cases ham : a.1 = m
    · have hb : (a.1 == b) = false := by
        simp only [beq_eq_false_iff_ne]
        exact fun hh => h (hh ▸ ham)
      have hmb : (m == b) = false := by
        simp only [beq_eq_false_iff_ne]
        exact fun hh => h hh.symm
      simp [List.filter_cons, ham, hb, hmb, ih, List.find?_cons]
    · by_cases hab : a.1 = b
      · simp [List.filter_cons, ham, hab, h, List.find?_cons]
      · simp [List.filter_cons, ham, hab, ih, List.find?_cons]

/-- zadd writes the new score for its member and leaves every other member's
score unchanged. -/
theorem zscore_zadd (s : List ZEntry) (m : Nat) (t : Int) (b : Nat) :
    zscore (zadd s m t) b = if b = m then some t else zscore s b := by
  unfold zscore zadd
  rw [List.find?_append]
  by_cases hbm : b = m
  · subst hbm
    have hnone : (s.filter (fun e => !(e.1 == b))).find? (fun e => e.1 == b) = none := by
      rw [List.find?_eq_none]
      intro x hx
      have hx2 := (List.mem_filter.mp hx).2
      simp only [Bool.not_eq_eq_eq_not, Bool.not_true] at hx2
      simp [hx2]
    simp [hnone]
  · have hsing : (([(m, t)] : List ZEntry).find? (fun e => e.1 == b)) = none := by
      simp only [List.find?_cons, List.find?_nil]
      have : (m == b) = false := by
        simp only [beq_eq_false_iff_ne]
        exact fun hh => hbm hh.symm
      simp [this]
    rw [find?_filter_key_ne s m b hbm, hsing, Option.or_none]
    simp [hbm]

/-- After a fold of recordView calls, a member's stored score is the score of
the last call for that member, falling back to the initial store. -/
theorem zscore_foldl_recordView (ops : List (Nat × Int)) :
    ∀ (s : List ZEntry) (b : Nat),
      zscore (ops.foldl (fun acc p => recordView acc p.1 p.2) s) b =
        match ops.reverse.find? (fun p => p.1 == b) with
        | some p => some p.2
        | none => zscore s b := by
  induction ops with
  | nil => intro s b; rfl
  | cons p rest ih =>
    intro s b
    rw [List.foldl_cons, ih, List.reverse_cons, List.find?_append]
    cases hrest : rest.reverse.find? (fun q => q.1 == b) with
    | some q => simp
    | none =>
      simp only [Option.none_or]
      rw [recordView, zscore_zadd]
      by_cases hb : b = p.1
      · subst hb
        simp [List.find?_cons]
      · have : (p.1 == b) = false := by
          simp only [beq_eq_false_iff_ne]
          exact fun hh => hb hh.symm
        simp [List.find?_cons, this, hb]

/-- The store reached from the empty key stores, for every member, exactly
the timestamp of the last recordView call for it: last write wins. -/
theorem zscore_applyViews (ops : List (Nat × Int)) (b : Nat) :
    zscore (applyViews ops) b = lastRecorded ops b := by
  rw [applyViews, zscore_foldl_recordView]
  unfold lastRecorded
  cases h : ops.reverse.find? (fun p => p.1 == b) <;> simp [h, zscore]

/-- A stored score comes from an entry of the association list. -/
theorem zscore_eq_some_mem (s : List ZEntry) (b : Nat) (t : Int)
    (h : zscore s b = some t) : (b, t) ∈ s := by
  unfold zscore at h
  cases hf : s.find? (fun e => e.1 == b) with
  | none => rw [hf] at h; simp at h
  | some e =>
    rw [hf] at h
    simp at h
    have he1 := List.find?_some hf
    simp only [beq_iff_eq] at he1
    have hmem := List.mem_of_find?_eq_some hf
    have hee : e = (b, t) := by
      cases e
      simp_all
    rwa [hee] at hmem

/-- Every entry of a zadd result carrying the written member's key is the
newly written entry. -/
theorem mem_zadd_key_eq (s : List ZEntry) (m : Nat) (t : Int) (e : ZEntry)
    (he : e ∈ zadd s m t) (hk : e.1 = m) : e = (m, t) := by
  unfold zadd at he
  rcases List.mem_append.mp he with hf | hs
  · have hx := (List.mem_filter.mp hf).2
    simp [hk] at hx
  · simpa using hs

/-- When one board's score strictly dominates every other stored score, the
top-1 zrange is exactly that board. -/
theorem topRecent_one_of_strict_max (s : List ZEntry) (b : Nat) (t : Int)
    (hmem : (b, t) ∈ s) (hmax : ∀ e ∈ s, e.1 ≠ b → e.2 < t) :
    topRecent s 1 = [b] := by
  unfold topRecent zrangeDesc
  have hperm := List.perm_insertionSort zrangeDescRel s
  have hsorted := List.sorted_insertionSort zrangeDescRel s
  have hmem' : (b, t) ∈ List.insertionSort zrangeDescRel s := hperm.mem_iff.mpr hmem
  cases hl : List.insertionSort zrangeDescRel s with
  | nil => rw [hl] at hmem'; simp at hmem'
  | cons hd tl =>
    rw [hl] at hmem' hsorted
    have hhd_mem : hd ∈ s := hperm.mem_iff.mp (hl ▸ List.mem_cons_self hd tl)
    have hd1 : hd.1 = b := by
      by_contra hne
      have hlt : hd.2 < t := hmax hd hhd_mem hne
      have hbt_tl : (b, t) ∈ tl := by
        rcases List.mem_cons.mp hmem' with heq | htl
        · exact absurd (congrArg Prod.fst heq.symm) hne
        · exact htl
      have hrel := List.rel_of_sorted_cons hsorted _ hbt_tl
      unfold zrangeDescRel at hrel
      rcases hrel with h1 | ⟨h1, _⟩ <;> omega
    simp [hd1]

/-- After re-recording a board with a score strictly below another stored
board's score, the re-recorded board is not top-1. -/
theorem topRecent_one_ne_of_newer (s : List ZEntry) (b c : Nat) (tOld tc : Int)
    (hbc : b ≠ c) (hc : zscore (zadd s b tOld) c = some tc) (hlt : tOld < tc) :
    topRecent (zadd s b tOld) 1 ≠ [b] := by
  intro hcontra
  unfold topRecent zrangeDesc at hcontra
  have hperm := List.perm_insertionSort zrangeDescRel (zadd s b tOld)
  have hsorted := List.sorted_insertionSort zrangeDescRel (zadd s b tOld)
  have hcmem : (c, tc) ∈ zadd s b tOld := zscore_eq_some_mem _ _ _ hc
  have hcmem' : (c, tc) ∈ List.insertionSort zrangeDescRel (zadd s b tOld) :=
    hperm.mem_iff.mpr hcmem
  cases hl : List.insertionSort zrangeDescRel (zadd s b tOld) with
  | nil => rw [hl] at hcmem'; simp at hcmem'
  | cons hd tl =>
    rw [hl] at hcontra hcmem' hsorted
    have hd1 : hd.1 = b := by simpa using hcontra
    have hhd_mem : hd ∈ zadd s b tOld := hperm.mem_iff.mp (hl ▸ List.mem_cons_self hd tl)
    have hhd_eq : hd = (b, tOld) := mem_zadd_key_eq s b tOld hd hhd_mem hd1
    have hct_tl : (c, tc) ∈ tl := by
      rcases List.mem_cons.mp hcmem' with heq | htl
      · rw [hhd_eq] at heq
        exact absurd (congrArg Prod.fst heq) hbc.symm
      · exact htl
    have hrel := List.rel_of_sorted_cons hsorted _ hct_tl
    rw [hhd_eq] at hrel
    unfold zrangeDescRel at hrel
    rcases hrel with h1 | ⟨h1, _⟩ <;> omega

/-- C4: after any sequence of recordView calls, topRecent(u, 1) is the board
whose last-recorded timestamp strictly dominates the rest of the store;
re-recording a tracked board with an older timestamp overwrites its score
(last write wins) and leaves it behind a board with a newer timestamp; and
topRecent on an empty store is the empty sequence. -/
theorem recency_tracker_top_recent :
    (∀ (ops : List (Nat × Int)) (b : Nat) (t : Int),
        lastRecorded ops b = some t →
        (∀ e ∈ applyViews ops, e.1 ≠ b → e.2 < t) →
        topRecent (applyViews ops) 1 = [b]) ∧
    (∀ (ops : List (Nat × Int)) (b c : Nat) (t0 tc tOld : Int),
        b ≠ c →
        zscore (applyViews ops) b = some t0 →
        zscore (applyViews ops) c = some tc →
        tOld < tc →
        zscore (recordView (applyViews ops) b tOld) b = some tOld ∧
        topRecent (recordView (applyViews ops) b tOld) 1 ≠ [b]) ∧
    topRecent (applyViews []) 1 = [] := by
  refine ⟨?_, ?_, rfl⟩
  · intro ops b t hlast hmax
    have hz : zscore (applyViews ops) b = some t := by
      rw [zscore_applyViews]
      exact hlast
    exact topRecent_one_of_strict_max _ b t (zscore_eq_some_mem _ _ _ hz) hmax
  · intro ops b c t0 tc tOld hbc hb hc hlt
    constructor
    · rw [recordView, zscore_zadd]
      simp
    · apply topRecent_one_ne_of_newer _ b c tOld tc hbc ?_ hlt
      rw [zscore_zadd, if_neg (fun hh => hbc hh.symm)]
      exact hc

/-- Witness for C4: view board 10 at time 5, then board 20 at time 9; board
20 is the single most recent board, and re-recording board 10 at the older
time 3 overwrites its score but does not put it ahead of board 20. -/
theorem recency_tracker_top_recent_witness :
    topRecent (applyViews [(10, 5), (20, 9)]) 1 = [20] ∧
    (zscore (recordView (applyViews [(10, 5), (20, 9)]) 10 3) 10 = some 3 ∧
      topRecent (recordView (applyViews [(10, 5), (20, 9)]) 10 3) 1 ≠ [10]) := by
  constructor
  · exact recency_tracker_top_recent.1 [(10, 5), (20, 9)] 20 9 (by decide) (by decide)
  · exact recency_tracker_top_recent.2.1 [(10, 5), (20, 9)] 10 20 5 9 3 (by decide)
      (by decide) (by decide) (by decide)

/-- RedisClient creation, src/config/utils/redis_handler.py lines 28-43: on
a connection error the exception is caught and the instance's redis attribute
is set to None, so the module-level redis_client is None whenever the store
was unreachable at client creation; otherwise it is the connected store. -/
def redisClientInit (reachable : Bool) (store : List ZEntry) :
    Option (List ZEntry) :=
  if reachable then some store else none

/-- BoardDetail.get_object, src/boards/views.py lines 162-167: builds the
per-user key and calls r.zadd unconditionally before delegating to the
framework lookup. When redis_client is None this attribute access raises
AttributeError and the request fails; otherwise the view is recorded. -/
def BoardDetail.get_object (r : Option (List ZEntry)) (board_id : Nat)
    (ts : Int) : Except String (List ZEntry) :=
  match r with
  | none => Except.error "AttributeError: redis client is None"
  | some s => Except.ok (recordView s board_id ts)

/-- The sort=recent branch of BoardList.get_queryset, src/boards/views.py
lines 49-55: calls r.zrange unconditionally; when redis_client is None this
attribute access raises AttributeError and the request fails; otherwise the
top four recently viewed board ids are returned. -/
def BoardList.get_queryset_recent (r : Option (List ZEntry)) :
    Except String (List Nat) :=
  match r with
  | none => Except.error "AttributeError: redis client is None"
  | some s => Except.ok (topRecent s 4)

/-- C2 at the failing input: with the ranked store unreachable at client
creation, both Recency Tracker call sites raise instead of recovering
locally — the board-retrieval and the recent-listing paths fail with an
AttributeError rather than treating the tracker as an empty result set. -/
theorem recency_store_down_requests_fail :
    BoardDetail.get_object (redisClientInit false []) 1 20250101000000 =
      Except.error "AttributeError: redis client is None" ∧
    BoardList.get_queryset_recent (redisClientInit false []) =
      Except.error "AttributeError: redis client is None" := by
  exact ⟨rfl, rfl⟩

/-- Modelled from the spec: src/boards/permissions.py is not under src. The
CanViewBoard permission class delegates its object check for a board-scoped
resource to the Access Evaluator can_view_board of the requesting user. -/
def canViewBoardPermission (u : CustomUser) (b : Board)
    (ms : List ProjectMembership) : Bool :=
  u.can_view_board b ms

/-- An HTTP method, as far as the permission classes distinguish them. -/
inductive HttpMethod
  | get
  | put
  | delete
  deriving DecidableEq, Repr

/-- Safe methods in the read-only sense of the permission classes. -/
def HttpMethod.isSafe : HttpMethod → Bool
  | .get => true
  | _ => false

/-- Modelled from the spec: IsAuthorOrReadOnly of src/boards/permissions.py
is not under src; read access passes for everyone, edit and delete pass only
for the comment's author. -/
def isAuthorOrReadOnlyPermission (method : HttpMethod) (u : CustomUser)
    (author_id : Nat) : Bool :=
  method.isSafe || (author_id == u.id)

/-- A boards.List row reduced to its parent board. -/
structure ListRec where
  id : Nat
  board : Board
  deriving DecidableEq, Repr

/-- A boards.Comment row reduced to its author. -/
structure Comment where
  id : Nat
  author_id : Nat
  deriving DecidableEq, Repr

/-- ListDetail.get_object, src/boards/views.py lines 280-288: object
permissions (CanViewBoard) are checked against the list's board. -/
def listDetailPermitted (u : CustomUser) (ms : List ProjectMembership)
    (l : ListRec) : Bool :=
  canViewBoardPermission u l.board ms

/-- ItemDetail.get_object, src/boards/views.py lines 400-404: object
permissions (CanViewBoard) are checked against the board of the item's
list. -/
def itemDetailPermitted (u : CustomUser) (ms : List ProjectMembership)
    (item_board : Board) : Bool :=
  canViewBoardPermission u item_board ms

/-- CommentDetail, src/boards/views.py lines 523-531: its only permission
class is IsAuthorOrReadOnly, checked against the comment itself; the board
reached through the comment's parent chain is never consulted. -/
def commentDetailPermitted (method : HttpMethod) (u : CustomUser)
    (c : Comment) : Bool :=
  isAuthorOrReadOnlyPermission method u c.author_id

/-- The effective LabelDetail, src/boards/views.py lines 599-604: the second
class definition shadows the CanViewBoard-gated one at lines 588-596, and its
permission class is AllowAny, so every request is permitted. -/
def labelDetailPermitted (_u : CustomUser) (_label_board : Board) : Bool :=
  true

/-- AttachmentDetail, src/boards/views.py lines 615-620: permission class
AllowAny, so every request is permitted. -/
def attachmentDetailPermitted (_u : CustomUser) : Bool :=
  true

/-- C3 counterexample: a user who cannot view the board owning a label is
nevertheless permitted to retrieve, update or delete the label through the
effective LabelDetail view, and likewise any attachment and any comment
retrieval — the claim states every such operation is denied when canView is
false. -/
theorem detail_gating_counterexample :
    CustomUser.can_view_board ⟨2, "eve"⟩ ⟨1, "B", 1, "customuser", none, "", ""⟩ [] = false ∧
    labelDetailPermitted ⟨2, "eve"⟩ ⟨1, "B", 1, "customuser", none, "", ""⟩ = true ∧
    attachmentDetailPermitted ⟨2, "eve"⟩ = true ∧
    commentDetailPermitted HttpMethod.get ⟨2, "eve"⟩ ⟨9, 1⟩ = true := by
  exact ⟨rfl, rfl, rfl, rfl⟩

/-- C3 (amended): List and Item detail operations are gated by canView on
the board reached through the parent chain; Comment detail operations are
gated only by authorship and only for non-safe methods; the effective Label
and Attachment detail views permit every request regardless of canView. -/
theorem effective_detail_gating (u : CustomUser) (ms : List ProjectMembership)
    (l : ListRec) (ib : Board) (m : HttpMethod) (c : Comment) (lb : Board) :
    (u.can_view_board l.board ms = false → listDetailPermitted u ms l = false) ∧
    (u.can_view_board ib ms = false → itemDetailPermitted u ms ib = false) ∧
    (m.isSafe = false → c.author_id ≠ u.id → commentDetailPermitted m u c = false) ∧
    labelDetailPermitted u lb = true ∧
    attachmentDetailPermitted u = true := by
  refine ⟨fun h => h, fun h => h, fun h1 h2 => ?_, rfl, rfl⟩
  simp [commentDetailPermitted, isAuthorOrReadOnlyPermission, h1, h2]

/-- Witness for the amended C3: a non-viewer is denied on list and item
detail, and a non-author is denied a comment deletion. -/
theorem effective_detail_gating_witness :
    listDetailPermitted ⟨2, "eve"⟩ [] ⟨6, ⟨1, "B", 1, "customuser", none, "", ""⟩⟩ = false ∧
    itemDetailPermitted ⟨2, "eve"⟩ [] ⟨1, "B", 1, "customuser", none, "", ""⟩ = false ∧
    commentDetailPermitted HttpMethod.delete ⟨2, "eve"⟩ ⟨9, 1⟩ = false := by
  refine ⟨?_, ?_, ?_⟩
  · exact (effective_detail_gating ⟨2, "eve"⟩ []
      ⟨6, ⟨1, "B", 1, "customuser", none, "", ""⟩⟩ ⟨1, "B", 1, "customuser", none, "", ""⟩
      HttpMethod.delete ⟨9, 1⟩ ⟨1, "B", 1, "customuser", none, "", ""⟩).1 (by decide)
  · exact (effective_detail_gating ⟨2, "eve"⟩ []
      ⟨6, ⟨1, "B", 1, "customuser", none, "", ""⟩⟩ ⟨1, "B", 1, "customuser", none, "", ""⟩
      HttpMethod.delete ⟨9, 1⟩ ⟨1, "B", 1, "customuser", none, "", ""⟩).2.1 (by decide)
  · exact (effective_detail_gating ⟨2, "eve"⟩ []
      ⟨6, ⟨1, "B", 1, "customuser", none, "", ""⟩⟩ ⟨1, "B", 1, "customuser", none, "", ""⟩
      HttpMethod.delete ⟨9, 1⟩ ⟨1, "B", 1, "customuser", none, "", ""⟩).2.2.1 rfl (by decide)

end TaskManager
